import Mathlib

/-!
Verification development for the `Dataset` component of the giskard python
client (`giskard/ml_worker/core/dataset.py`).

The component is embedded shallowly:

* tables are lists of named, dtype-tagged columns of cells
  (`Cell.null` models a pandas missing value / NaN marker);
* `encodeTable` models the text-based columnar encoding produced by the
  external helper `save_df` (delimited rows, first row the header, the
  reserved sentinel token `_GSK_NA_` in place of missing values), kept at
  the granularity of rows of field strings — CSV quoting is internal to the
  excluded dataframe library;
* `decodeTable` models `pd.read_csv(..., keep_default_na=False,
  na_values=["_GSK_NA_"])`: only the sentinel becomes missing again, and a
  column whose fields are all integer literals is inferred as `int64`
  (float inference of the dataframe library is not modelled; such columns
  stay `object` here);
* `cast_column_to_types` mirrors `Dataset.cast_column_to_types`
  (`df.astype(column_types)` guarded by `if column_types:`, any failure
  wrapped in a descriptive error);
* `Dataset.save` / `Dataset.load` mirror the save and load pipelines over an
  explicit `World` holding the remote artifact store, the metadata registry
  and the deterministic local cache.

Integer fields travel through the file as decimal text, so the development
starts with an executable decimal printer/parser pair and its round-trip
lemmas.
-/

deriving instance DecidableEq for Except

namespace Giskard

/-- Little-endian base-10 digits of `n`, with explicit fuel so that the
recursion is structural and evaluates inside the kernel. -/
def toDigitsLE : Nat → Nat → List Nat
  | 0, _ => []
  | fuel + 1, n => if n = 0 then [] else n % 10 :: toDigitsLE fuel (n / 10)

/-- Value of a little-endian base-10 digit list. -/
def ofDigitsLE : List Nat → Nat
  | [] => 0
  | d :: ds => d + 10 * ofDigitsLE ds

theorem toDigitsLE_lt (fuel : Nat) : ∀ n, ∀ d ∈ toDigitsLE fuel n, d < 10 := by
  induction fuel with
  | zero => intro n d hd; simp [toDigitsLE] at hd
  | succ f ih =>
    intro n d hd
    by_cases h0 : n = 0
    · simp [toDigitsLE, h0] at hd
    · rw [toDigitsLE, if_neg h0] at hd
      rcases List.mem_cons.mp hd with h1 | h2
      · subst h1; omega
      · exact ih (n / 10) d h2

theorem ofDigitsLE_toDigitsLE (fuel : Nat) : ∀ n, n ≤ fuel →
    ofDigitsLE (toDigitsLE fuel n) = n := by
  induction fuel with
  | zero => intro n hn; interval_cases n; simp [toDigitsLE, ofDigitsLE]
  | succ f ih =>
    intro n hn
    by_cases h0 : n = 0
    · simp [toDigitsLE, h0, ofDigitsLE]
    · rw [toDigitsLE, if_neg h0, ofDigitsLE, ih (n / 10) (by omega)]
      omega

theorem toDigitsLE_ne_nil (fuel n : Nat) (hn : n ≠ 0) :
    toDigitsLE (fuel + 1) n ≠ [] := by
  rw [toDigitsLE, if_neg hn]
  exact List.cons_ne_nil _ _

/-- The character for a single decimal digit. -/
def digitChar (d : Nat) : Char :=
  if d = 0 then '0' else if d = 1 then '1' else if d = 2 then '2'
  else if d = 3 then '3' else if d = 4 then '4' else if d = 5 then '5'
  else if d = 6 then '6' else if d = 7 then '7' else if d = 8 then '8'
  else '9'

/-- Decimal digit value of a character, if it is one. -/
def charDigit? (c : Char) : Option Nat :=
  if c = '0' then some 0 else if c = '1' then some 1 else if c = '2' then some 2
  else if c = '3' then some 3 else if c = '4' then some 4 else if c = '5' then some 5
  else if c = '6' then some 6 else if c = '7' then some 7 else if c = '8' then some 8
  else if c = '9' then some 9 else none

theorem charDigit_digitChar : ∀ d, d < 10 → charDigit? (digitChar d) = some d := by
  decide

theorem digitChar_ne_dash (d : Nat) : digitChar d ≠ '-' := by
  unfold digitChar
  split_ifs <;> decide

/-- Read a little-endian list of digit characters as a natural number. -/
def readDigitsLE : List Char → Option Nat
  | [] => some 0
  | c :: cs =>
    match charDigit? c, readDigitsLE cs with
    | some d, some r => some (d + 10 * r)
    | _, _ => none

theorem readDigitsLE_map (le : List Nat) (h : ∀ d ∈ le, d < 10) :
    readDigitsLE (le.map digitChar) = some (ofDigitsLE le) := by
  induction le with
  | nil => simp [readDigitsLE, ofDigitsLE]
  | cons d ds ih =>
    have hd : d < 10 := h d (List.mem_cons_self d ds)
    have hds : ∀ x ∈ ds, x < 10 := fun x hx => h x (List.mem_cons_of_mem d hx)
    rw [List.map_cons, readDigitsLE, charDigit_digitChar d hd, ih hds, ofDigitsLE]

/-- Decimal rendering of a natural number. -/
def printNat (n : Nat) : String :=
  if n = 0 then "0" else String.mk (((toDigitsLE (n + 1) n).map digitChar).reverse)

/-- Decimal rendering of an integer, as `pandas.to_csv` would emit it. -/
def printInt : Int → String
  | Int.ofNat n => printNat n
  | Int.negSucc n => "-" ++ printNat (n + 1)

/-- Characterization of `printNat`: the rendered text is the reversed image
under `digitChar` of a nonempty digit list whose value is `n`. -/
theorem printNat_spec (n : Nat) :
    ∃ le, le ≠ [] ∧ (∀ d ∈ le, d < 10) ∧ ofDigitsLE le = n ∧
      (printNat n).data = (le.map digitChar).reverse := by
  by_cases h0 : n = 0
  · refine ⟨[0], by simp, by simp, by simp [ofDigitsLE, h0], ?_⟩
    subst h0
    simp [printNat, digitChar]
  · refine ⟨toDigitsLE (n + 1) n, toDigitsLE_ne_nil n n h0, toDigitsLE_lt (n + 1) n,
      ofDigitsLE_toDigitsLE (n + 1) n (by omega), ?_⟩
    rw [printNat, if_neg h0]

/-- Parse a list of characters as an optionally negated decimal integer. -/
def parseCharsInt (l : List Char) : Option Int :=
  match l with
  | [] => none
  | c :: rest =>
    if c = '-' then
      if rest = [] then none
      else (readDigitsLE rest.reverse).map (fun n => -(n : Int))
    else (readDigitsLE ((c :: rest).reverse)).map (fun n => (n : Int))

/-- Parse a string as a decimal integer literal; `none` on any non-numeric
text.  This models the conversions the dataframe library applies to text
fields (`read_csv` integer inference and `astype("int64")`). -/
def parseIntLit (s : String) : Option Int := parseCharsInt s.data

theorem parseCharsInt_digits (le : List Nat) (hne : le ≠ []) (hlt : ∀ d ∈ le, d < 10) :
    parseCharsInt ((le.map digitChar).reverse) = some ((ofDigitsLE le : Nat) : Int) := by
  cases hrev : (le.map digitChar).reverse with
  | nil =>
    exfalso
    exact hne (List.map_eq_nil_iff.mp (List.reverse_eq_nil_iff.mp hrev))
  | cons c cs =>
    have hc : c ∈ le.map digitChar := by
      have : c ∈ (le.map digitChar).reverse := by rw [hrev]; exact List.mem_cons_self c cs
      exact List.mem_reverse.mp this
    obtain ⟨d, _, hd⟩ := List.mem_map.mp hc
    have hcdash : c ≠ '-' := by rw [← hd]; exact digitChar_ne_dash d
    rw [parseCharsInt]
    rw [if_neg hcdash]
    have hback : (c :: cs).reverse = le.map digitChar := by
      rw [← hrev, List.reverse_reverse]
    rw [hback, readDigitsLE_map le hlt]
    rfl

theorem parseIntLit_printInt (z : Int) : parseIntLit (printInt z) = some z := by
  cases z with
  | ofNat n =>
    obtain ⟨le, hne, hlt, hof, hdata⟩ := printNat_spec n
    show parseCharsInt (printNat n).data = some (Int.ofNat n)
    rw [hdata, parseCharsInt_digits le hne hlt, hof]
    rfl
  | negSucc n =>
    obtain ⟨le, hne, hlt, hof, hdata⟩ := printNat_spec (n + 1)
    show parseCharsInt ("-" ++ printNat (n + 1)).data = some (Int.negSucc n)
    have hdq : ("-" ++ printNat (n + 1)).data = '-' :: (printNat (n + 1)).data := rfl
    rw [hdq, hdata, parseCharsInt]
    rw [if_pos rfl, if_neg (by simp [hne])]
    rw [List.reverse_reverse, readDigitsLE_map le hlt, hof]
    show some (-(((n + 1 : Nat) : Int))) = some (Int.negSucc n)
    congr 1

theorem parseIntLit_isSome_printInt (z : Int) : (parseIntLit (printInt z)).isSome = true := by
  rw [parseIntLit_printInt]; rfl

theorem printInt_ne_sentinel (z : Int) : printInt z ≠ "_GSK_NA_" := by
  intro h
  have h1 := parseIntLit_printInt z
  rw [h] at h1
  have h2 : parseIntLit "_GSK_NA_" = none := by decide
  rw [h2] at h1
  exact Option.noConfusion h1

/-! ## Tables

A `Cell` is one value of the in-memory table: a genuine missing value
(`Cell.null`, modelling pandas NaN / NA), an integer, or a piece of text.
A `Column` carries its name, its physical storage type tag (the pandas
`dtype` name, e.g. `"int64"` or `"object"`) and its cells; a `Table` is the
ordered sequence of its columns, as in a dataframe. -/

/-- One table cell. -/
inductive Cell where
  | null : Cell
  | int : Int → Cell
  | str : String → Cell
deriving DecidableEq

/-- One named, dtype-tagged column. -/
structure Column where
  name : String
  dtype : String
  cells : List Cell
deriving DecidableEq

/-- An in-memory table: the ordered list of its columns. -/
structure Table where
  cols : List Column
deriving DecidableEq

/-- Placeholder column used only as the default of positional lookups. -/
def dummyCol : Column := ⟨"", "", []⟩

/-- Row count of a table (length of its first column; all columns of a
well-formed table have this length). -/
def Table.nrows (t : Table) : Nat :=
  match t.cols with
  | [] => 0
  | c :: _ => c.cells.length

/-- Cell of column `j` at row `i`, if both indices are in range. -/
def Table.cell? (t : Table) (j i : Nat) : Option Cell :=
  t.cols[j]?.bind (fun c => c.cells[i]?)

/-! ## Text encoding (save side)

`save_df` lives in `giskard.client.io_utils`, outside the provided sources.
Modelled from the spec: a text-based columnar encoding — rows as delimited
text with the header first, stable column order, and the reserved sentinel
token `_GSK_NA_` written in place of genuinely missing values.  The encoding
is kept at the granularity of rows of field strings; the comma/quoting layer
belongs to the excluded dataframe library. -/

/-- The reserved missing-value sentinel token of the giskard text format. -/
def naSentinel : String := "_GSK_NA_"

/-- Text rendering of one cell, as written into the data file. -/
def encodeCell : Cell → String
  | Cell.null => naSentinel
  | Cell.int z => printInt z
  | Cell.str s => s

/-- Modelled from the spec: `save_df` — encode the table as delimited text,
header row first, then one row of fields per table row. -/
def encodeTable (t : Table) : List (List String) :=
  (t.cols.map Column.name) ::
    (List.range t.nrows).map
      (fun i => t.cols.map (fun c => encodeCell (c.cells.getD i Cell.null)))

/-- Modelled from the spec: `compress` of `giskard.client.io_utils` — a
streaming compressor whose only correctness property is that reader and
writer agree; modelled as the identity on encoded content. -/
def compressBytes (b : List (List String)) : List (List String) := b

/-- Modelled from the spec: the matching `ZstdDecompressor` stream, the
exact inverse of `compressBytes`. -/
def decompressBytes (b : List (List String)) : List (List String) := b

/-! ## Text decoding (load side)

Models `pd.read_csv(stream, keep_default_na=False, na_values=["_GSK_NA_"])`
as called by `Dataset._read_dataset_from_local_dir`: only the sentinel token
becomes a missing value again (`keep_default_na=False` keeps empty fields as
empty strings), and a column whose fields are all integer literals is
inferred with physical type `int64`; every other column keeps its fields as
text with dtype `object`.  Float inference of the dataframe library is not
modelled. -/

/-- Decode one field: exactly the sentinel token becomes a missing value. -/
def parseField (s : String) : Cell :=
  if s = naSentinel then Cell.null else Cell.str s

/-- Whether a decoded cell is an integer literal field. -/
def isIntLitCell : Cell → Bool
  | Cell.str s => (parseIntLit s).isSome
  | _ => false

/-- Turn an integer-literal field into an integer cell. -/
def intifyCell : Cell → Cell
  | Cell.str s =>
    match parseIntLit s with
    | some z => Cell.int z
    | none => Cell.str s
  | c => c

/-- Dtype inference for one decoded column: all-integer-literal columns are
read back as `int64`, everything else stays `object` text. -/
def inferCells (cs : List Cell) : String × List Cell :=
  if cs.all isIntLitCell then ("int64", cs.map intifyCell) else ("object", cs)

/-- Decode the data file back into a table (header row gives the column
names, remaining rows the fields). -/
def decodeTable (file : List (List String)) : Table :=
  match file with
  | [] => ⟨[]⟩
  | header :: rows =>
    ⟨(List.range header.length).map
      (fun j =>
        let p := inferCells (rows.map (fun r => parseField (r.getD j "")))
        ⟨header.getD j "", p.1, p.2⟩)⟩

/-! ## Column-type coercion

Models `Dataset.cast_column_to_types`: `df.astype(column_types)` guarded by
`if column_types:`; any failure of the underlying conversion is wrapped in
`ValueError("Failed to apply column types to dataset") from e`. -/

/-- First value bound to `k` in an association list (Python dict lookup). -/
def findVal {α : Type} (k : String) : List (String × α) → Option α
  | [] => none
  | (k', v) :: rest => if k' = k then some v else findVal k rest

/-- Convert one cell to the declared physical type, as `astype` would:
integer cells and integer-literal text convert to `int64`; everything
converts to `object` unchanged; missing values cannot become `int64`;
unknown type names fail. -/
def castCell (ty : String) (c : Cell) : Option Cell :=
  if ty = "int64" then
    match c with
    | Cell.int z => some (Cell.int z)
    | Cell.str s => (parseIntLit s).map Cell.int
    | Cell.null => none
  else if ty = "object" then some c
  else none

/-- Convert every cell of a column, all-or-nothing. -/
def castCells (ty : String) : List Cell → Option (List Cell)
  | [] => some []
  | c :: cs =>
    match castCell ty c, castCells ty cs with
    | some c', some cs' => some (c' :: cs')
    | _, _ => none

/-- Convert one column to the declared physical type. -/
def castColumn (ty : String) (c : Column) : Option Column :=
  (castCells ty c.cells).map (fun cs => ⟨c.name, ty, cs⟩)

/-- Apply the declared types column by column, keeping columns that
`column_types` does not name untouched; the first failing column aborts the
whole conversion with a description of the underlying failure. -/
def castCols (cts : List (String × String)) : List Column → Except String (List Column)
  | [] => Except.ok []
  | c :: rest =>
    match findVal c.name cts with
    | none => (castCols cts rest).map (fun r => c :: r)
    | some ty =>
      match castColumn ty c with
      | none => Except.error ("cannot cast column " ++ c.name ++ " to " ++ ty)
      | some c' => (castCols cts rest).map (fun r => c' :: r)

/-- The descriptive error raised by `cast_column_to_types`: the fixed
message of the `ValueError`, wrapping the underlying conversion failure. -/
structure CoercionFailure where
  message : String
  cause : String
deriving DecidableEq

/-- `Dataset.cast_column_to_types(df, column_types)`: no-op when
`column_types` is `None` or empty (Python falsiness of `{}`); otherwise
`df.astype(column_types)`, with a `KeyError` when a named column is absent
from the table, and every failure wrapped in the fixed descriptive
message. -/
def cast_column_to_types (df : Table) (column_types : Option (List (String × String))) :
    Except CoercionFailure Table :=
  match column_types with
  | none => Except.ok df
  | some cts =>
    if cts.isEmpty then Except.ok df
    else if cts.all (fun p => (df.cols.map Column.name).contains p.1) then
      match castCols cts df.cols with
      | Except.error cause => Except.error ⟨"Failed to apply column types to dataset", cause⟩
      | Except.ok cols => Except.ok ⟨cols⟩
    else Except.error ⟨"Failed to apply column types to dataset", "KeyError"⟩

/-! ## Dataset and DatasetMeta -/

/-- Modelled from the spec: `DatasetMeta` of `giskard.core.core` (outside
the provided sources) — the pure projection of `{name, target,
feature_types, column_types}`, the exact payload of the metadata file. -/
structure DatasetMeta where
  name : Option String
  target : Option String
  feature_types : Option (List (String × String))
  column_types : Option (List (String × String))
deriving DecidableEq

/-- The in-memory dataset handle: metadata fields plus the table.  The `df`
field mirrors the source's non-optional `df: pd.DataFrame` annotation. -/
structure Dataset where
  name : Option String
  target : Option String
  feature_types : Option (List (String × String))
  column_types : Option (List (String × String))
  df : Table
deriving DecidableEq

/-- `Dataset.__init__`: store the given table and metadata as passed. -/
def Dataset.init (df : Table) (name target : Option String)
    (feature_types column_types : Option (List (String × String))) : Dataset :=
  ⟨name, target, feature_types, column_types, df⟩

/-- The `Dataset.meta` property: recomputed projection of the four metadata
fields. -/
def Dataset.meta (d : Dataset) : DatasetMeta :=
  ⟨d.name, d.target, d.feature_types, d.column_types⟩

/-- `Dataset.slice`: identity on an unset transform, otherwise a new
dataset wrapping the transformed table under identical metadata. -/
def Dataset.slice (d : Dataset) (slice_fn : Option (Table → Table)) : Dataset :=
  match slice_fn with
  | none => d
  | some f => ⟨d.name, d.target, d.feature_types, d.column_types, f d.df⟩

/-- The `Dataset.columns` property. -/
def Dataset.columns (d : Dataset) : List String := d.df.cols.map Column.name

/-- `Dataset.__len__`. -/
def Dataset.len (d : Dataset) : Nat := d.df.nrows

/-! ## The external world: artifact store, registry, local cache

The HTTP client, the metadata registry and the settings module are external
collaborators (or repository code outside the provided sources); they are
modelled from the spec as an explicit state threaded through `save` and
`load`.  The staging temporary directory of `save` is created and removed
within the call, so it does not appear in the state. -/

/-- The two files staged and shipped per dataset: the compressed data file
`data.csv.zst` and the metadata file `giskard-dataset-meta.yaml`.  The yaml
layer is modelled structurally (the spec pins round-tripped structured
values, not byte content). -/
structure Artifact where
  data : List (List String)
  metaFile : DatasetMeta
deriving DecidableEq

/-- External state: remote artifact store, metadata registry (with the two
registered byte sizes), deterministic local cache, and the source of fresh
identifiers. -/
structure World where
  remote : List (String × Artifact)
  registry : List (String × (DatasetMeta × Nat × Nat))
  cache : List (String × Artifact)
  nextId : Nat
deriving DecidableEq

/-- `posixpath.join(project_key, "datasets", dataset_id)`. -/
def artifactPath (pk id : String) : String := pk ++ "/datasets/" ++ id

/-- Modelled from the spec: `settings.home_dir / settings.cache_dir /
project_key / "datasets" / dataset_id`, the deterministic local cache
directory. -/
def localDirPath (pk id : String) : String :=
  "home/giskard-cache/" ++ pk ++ "/datasets/" ++ id

/-- Size measure of an encoded file (`len` of the byte strings). -/
def byteSize (b : List (List String)) : Nat :=
  (b.map (fun r => (r.map String.length).sum)).sum

/-- Modelled from the spec: `uuid.uuid4().hex` — a process-unique fresh
identifier, modelled by consuming the world's id source. -/
def freshId (w : World) : String := "uuid-" ++ printNat w.nextId

/-- Failures of the save pipeline surfaced by this component. -/
inductive SaveError where
  | validation : SaveError
deriving DecidableEq

/-- Failures of the load pipeline surfaced by this component. -/
inductive LoadError where
  | missingCache : LoadError
  | download : LoadError
  | registryMiss : LoadError
  | coercion : CoercionFailure → LoadError
deriving DecidableEq

/-- `Dataset.save(client, project_key)`: validate first (abort before any
I/O on failure), then generate a fresh identifier, stage the encoded and
compressed data file together with the metadata file, upload both under
`project_key/datasets/<id>` and register the metadata with both byte
sizes; returns the generated identifier.  `validate` stands for the
external `validate_dataset` collaborator. -/
def Dataset.save (validate : Dataset → Bool) (d : Dataset) (pk : String) (w : World) :
    World × Except SaveError String :=
  if validate d then
    let id := freshId w
    let uncompressed := encodeTable d.df
    let compressed := compressBytes uncompressed
    let art : Artifact := ⟨compressed, d.meta⟩
    let path := artifactPath pk id
    ({ w with
        nextId := w.nextId + 1,
        remote := (path, art) :: w.remote,
        registry := (path, (d.meta, byteSize uncompressed, byteSize compressed)) :: w.registry },
      Except.ok id)
  else (w, Except.error SaveError.validation)

/-- Shared tail of both load modes: decompress and decode the data file,
coerce with the loaded metadata's `column_types`, and construct a new
dataset from the coerced table plus every metadata field. -/
def finishLoad (w : World) (art : Artifact) (meta : DatasetMeta) :
    World × Except LoadError Dataset :=
  match cast_column_to_types (decodeTable (decompressBytes art.data)) meta.column_types with
  | Except.error e => (w, Except.error (LoadError.coercion e))
  | Except.ok df =>
    (w, Except.ok ⟨meta.name, meta.target, meta.feature_types, meta.column_types, df⟩)

/-- `Dataset.load(client, project_key, dataset_id)`: with no client the
deterministic cache directory must already exist (assertion-style fatal
error otherwise) and the metadata file is read from disk; with a client the
artifacts are materialized into the cache and the metadata record is
fetched from the registry.  Both modes then run `finishLoad`. -/
def Dataset.load : Option Unit → String → String → World → World × Except LoadError Dataset
  | none, pk, id, w =>
    (match findVal (localDirPath pk id) w.cache with
      | none => (w, Except.error LoadError.missingCache)
      | some art => finishLoad w art art.metaFile)
  | some _, pk, id, w =>
    (match findVal (artifactPath pk id) w.remote with
      | none => (w, Except.error LoadError.download)
      | some art =>
        let w1 : World := { w with cache := (localDirPath pk id, art) :: w.cache }
        match findVal (artifactPath pk id) w1.registry with
        | none => (w1, Except.error LoadError.registryMiss)
        | some info => finishLoad w1 art info.1)

/-! ## Well-typed tables

`wellTypedTable t cts` characterizes the in-memory tables whose physical
types are consistent with their declared `column_types` (what a dataframe
whose dtypes match its declaration looks like): declared `int64` columns
hold integers only (a numpy `int64` column cannot hold a missing value),
declared `object` columns hold missing values and text that is neither the
reserved sentinel nor an integer literal, undeclared columns are of one of
those two shapes as well (nonempty in the `object` case, so that their
inferred dtype is unambiguous), every declared name exists, and the table
is rectangular. -/

/-- A cell an `int64` column can hold. -/
def isIntCell : Cell → Bool
  | Cell.int _ => true
  | _ => false

/-- A cell an `object` column can hold and that survives the text
round-trip as itself: a missing value, or text that is neither the reserved
sentinel nor an integer literal. -/
def objCell : Cell → Bool
  | Cell.null => true
  | Cell.int _ => false
  | Cell.str s => (!(s == naSentinel)) && (parseIntLit s).isNone

/-- Declared-type consistency of one column. -/
def wellTypedColumn (cts : List (String × String)) (c : Column) : Bool :=
  match findVal c.name cts with
  | some ty =>
    if ty = "int64" then c.dtype == "int64" && c.cells.all isIntCell
    else if ty = "object" then c.dtype == "object" && c.cells.all objCell
    else false
  | none =>
    (c.dtype == "int64" && c.cells.all isIntCell)
      || (c.dtype == "object" && (!c.cells.isEmpty) && c.cells.all objCell)

/-- Declared-type consistency of a whole table (see section comment). -/
def wellTypedTable (t : Table) (cts : List (String × String)) : Bool :=
  t.cols.all (wellTypedColumn cts)
    && cts.all (fun p => (t.cols.map Column.name).contains p.1)
    && t.cols.all (fun c => c.cells.length == t.nrows)

/-! ## Round-trip of the text encoding -/

theorem getD_of_lt {α : Type} (l : List α) (d : α) (n : Nat) (h : n < l.length) :
    l.getD n d = l[n] := by
  rw [List.getD_eq_getElem?_getD, List.getElem?_eq_getElem h]
  rfl

theorem map_self {α : Type} (l : List α) (f : α → α) (h : ∀ a ∈ l, f a = a) :
    l.map f = l := by
  induction l with
  | nil => rfl
  | cons a as ih =>
    rw [List.map_cons, h a (List.mem_cons_self a as),
      ih (fun x hx => h x (List.mem_cons_of_mem a hx))]

/-- What one column decodes back to after the text round-trip: same name,
inferred dtype and decoded cells of its encoded fields. -/
def decCol (c : Column) : Column :=
  let p := inferCells (c.cells.map (fun x => parseField (encodeCell x)))
  ⟨c.name, p.1, p.2⟩

theorem decCol_name (c : Column) : (decCol c).name = c.name := rfl

theorem parseField_encodeCell_int (z : Int) :
    parseField (encodeCell (Cell.int z)) = Cell.str (printInt z) := by
  rw [encodeCell, parseField,
    if_neg (show printInt z ≠ naSentinel from printInt_ne_sentinel z)]

theorem parseField_encodeCell_obj (c : Cell) (h : objCell c = true) :
    parseField (encodeCell c) = c := by
  cases c with
  | null => simp [encodeCell, parseField]
  | int z => simp [objCell] at h
  | str s =>
    have hs : s ≠ naSentinel := by
      simp [objCell] at h
      exact h.1
    rw [encodeCell, parseField, if_neg hs]

theorem decCol_intCol (c : Column) (hall : c.cells.all isIntCell = true) :
    decCol c = ⟨c.name, "int64", c.cells⟩ := by
  have h1 : ∀ x ∈ c.cells, isIntCell x = true := List.all_eq_true.mp hall
  rw [decCol]
  have hPall : (c.cells.map (fun x => parseField (encodeCell x))).all isIntLitCell = true := by
    rw [List.all_eq_true]
    intro y hy
    obtain ⟨x, hx, hxy⟩ := List.mem_map.mp hy
    cases x with
    | null => exact absurd (h1 _ hx) (by simp [isIntCell])
    | str s => exact absurd (h1 _ hx) (by simp [isIntCell])
    | int z =>
      rw [← hxy, parseField_encodeCell_int]
      simp [isIntLitCell, parseIntLit_printInt]
  simp only [inferCells, hPall, if_true]
  have hback : (c.cells.map (fun x => parseField (encodeCell x))).map intifyCell = c.cells := by
    rw [List.map_map]
    apply map_self
    intro x hx
    cases x with
    | null => exact absurd (h1 _ hx) (by simp [isIntCell])
    | str s => exact absurd (h1 _ hx) (by simp [isIntCell])
    | int z =>
      show intifyCell (parseField (encodeCell (Cell.int z))) = Cell.int z
      rw [parseField_encodeCell_int]
      simp [intifyCell, parseIntLit_printInt]
  rw [hback]

theorem decCol_objCol (c : Column) (hall : c.cells.all objCell = true)
    (hne : c.cells ≠ []) :
    decCol c = ⟨c.name, "object", c.cells⟩ := by
  have h1 : ∀ x ∈ c.cells, objCell x = true := List.all_eq_true.mp hall
  have hmap : c.cells.map (fun x => parseField (encodeCell x)) = c.cells :=
    map_self _ _ (fun x hx => parseField_encodeCell_obj x (h1 x hx))
  rw [decCol, hmap]
  cases hc : c.cells with
  | nil => exact absurd hc hne
  | cons y ys =>
    have hy : objCell y = true := h1 y (by rw [hc]; exact List.mem_cons_self y ys)
    have hyno : isIntLitCell y = false := by
      cases y with
      | null => rfl
      | int z => simp [objCell] at hy
      | str s =>
        simp [objCell] at hy
        simp [isIntLitCell, Option.isSome_iff_ne_none, hy.2]
    have : ((y :: ys).all isIntLitCell) = false := by
      rw [List.all_cons, hyno]
      rfl
    simp [inferCells, this]

theorem decCol_emptyCells (c : Column) (h : c.cells = []) :
    decCol c = ⟨c.name, "int64", []⟩ := by
  simp [decCol, h, inferCells]

theorem castCells_object (cs : List Cell) : castCells "object" cs = some cs := by
  induction cs with
  | nil => rfl
  | cons c rest ih =>
    have hc : castCell "object" c = some c := by cases c <;> rfl
    rw [castCells, hc, ih]

theorem castCells_ints (cs : List Cell) (h : cs.all isIntCell = true) :
    castCells "int64" cs = some cs := by
  induction cs with
  | nil => rfl
  | cons c rest ih =>
    rw [List.all_cons, Bool.and_eq_true] at h
    have hc : castCell "int64" c = some c := by
      cases c with
      | int z => rfl
      | null => simp [isIntCell] at h
      | str s => simp [isIntCell] at h
    rw [castCells, hc, ih h.2]

theorem decCol_undeclared (cts : List (String × String)) (c : Column)
    (hf : findVal c.name cts = none) (h : wellTypedColumn cts c = true) :
    decCol c = c := by
  rw [wellTypedColumn, hf] at h
  have h' : ((c.dtype == "int64" && c.cells.all isIntCell)
      || (c.dtype == "object" && (!c.cells.isEmpty) && c.cells.all objCell)) = true := h
  clear h
  rw [Bool.or_eq_true] at h'
  rcases h' with h1 | h2
  · rw [Bool.and_eq_true] at h1
    have hd : c.dtype = "int64" := by simpa using h1.1
    rw [decCol_intCol c h1.2, ← hd]
  · rw [Bool.and_eq_true, Bool.and_eq_true] at h2
    have hd : c.dtype = "object" := by simpa using h2.1.1
    have hne : c.cells ≠ [] := by
      have := h2.1.2
      simpa using this
    rw [decCol_objCol c h2.2 hne, ← hd]

theorem decCol_declared (cts : List (String × String)) (c : Column) (ty : String)
    (hf : findVal c.name cts = some ty) (h : wellTypedColumn cts c = true) :
    castColumn ty (decCol c) = some c := by
  rw [wellTypedColumn, hf] at h
  have h' : (if ty = "int64" then c.dtype == "int64" && c.cells.all isIntCell
      else if ty = "object" then c.dtype == "object" && c.cells.all objCell
      else false) = true := h
  clear h
  rename' h' => h
  by_cases hty : ty = "int64"
  · subst hty
    rw [if_pos rfl, Bool.and_eq_true] at h
    have hd : c.dtype = "int64" := by simpa using h.1
    rw [decCol_intCol c h.2, castColumn]
    show (castCells "int64" c.cells).map _ = some c
    rw [castCells_ints c.cells h.2]
    show some ⟨c.name, "int64", c.cells⟩ = some c
    rw [← hd]
  · by_cases hty2 : ty = "object"
    · subst hty2
      rw [if_neg hty, if_pos rfl, Bool.and_eq_true] at h
      have hd : c.dtype = "object" := by simpa using h.1
      cases hc : c.cells with
      | nil =>
        rw [decCol_emptyCells c hc, castColumn]
        show (castCells "object" []).map _ = some c
        rw [castCells_object]
        show some ⟨c.name, "object", []⟩ = some c
        rw [← hc, ← hd]
      | cons y ys =>
        rw [decCol_objCol c h.2 (by rw [hc]; exact List.cons_ne_nil y ys), castColumn]
        show (castCells "object" c.cells).map _ = some c
        rw [castCells_object]
        show some ⟨c.name, "object", c.cells⟩ = some c
        rw [← hd]
    · rw [if_neg hty, if_neg hty2] at h
      exact absurd h (by simp)

theorem castCols_decoded (cts : List (String × String)) (cols : List Column)
    (h : ∀ c ∈ cols, wellTypedColumn cts c = true) :
    castCols cts (cols.map decCol) = Except.ok cols := by
  induction cols with
  | nil => rfl
  | cons c rest ih =>
    have hc := h c (List.mem_cons_self c rest)
    have hrest := ih (fun x hx => h x (List.mem_cons_of_mem c hx))
    rw [List.map_cons, castCols, decCol_name]
    cases hf : findVal c.name cts with
    | none =>
      show Except.map (fun r => decCol c :: r) (castCols cts (List.map decCol rest))
        = Except.ok (c :: rest)
      rw [decCol_undeclared cts c hf hc, hrest]
      rfl
    | some ty =>
      show (match castColumn ty (decCol c) with
        | none => Except.error ("cannot cast column " ++ (decCol c).name ++ " to " ++ ty)
        | some c' => Except.map (fun r => c' :: r) (castCols cts (List.map decCol rest)))
        = Except.ok (c :: rest)
      rw [decCol_declared cts c ty hf hc, hrest]
      rfl

theorem decode_encode_cols (t : Table)
    (hrect : ∀ c ∈ t.cols, c.cells.length = t.nrows) :
    decodeTable (encodeTable t) = ⟨t.cols.map decCol⟩ := by
  rw [encodeTable, decodeTable]
  congr 1
  rw [List.length_map]
  apply List.ext_getElem
  · rw [List.length_map, List.length_map, List.length_range]
  · intro j h1 h2
    rw [List.getElem_map, List.getElem_range, List.getElem_map]
    have hj : j < t.cols.length := by simpa using h2
    have hname : (t.cols.map Column.name).getD j "" = (t.cols[j]).name := by
      rw [getD_of_lt _ _ j (by simpa using hj), List.getElem_map]
    have hcells :
        ((List.range t.nrows).map
            (fun i => t.cols.map (fun c => encodeCell (c.cells.getD i Cell.null)))).map
            (fun r => parseField (r.getD j "")) =
          (t.cols[j]).cells.map (fun x => parseField (encodeCell x)) := by
      rw [List.map_map]
      have hlen : (t.cols[j]).cells.length = t.nrows := hrect _ (List.getElem_mem hj)
      rw [← hlen]
      apply List.ext_getElem
      · rw [List.length_map, List.length_range, List.length_map]
      · intro i hi1 hi2
        rw [List.getElem_map, List.getElem_range, List.getElem_map]
        show parseField
            ((t.cols.map (fun c => encodeCell (c.cells.getD i Cell.null))).getD j "") = _
        rw [getD_of_lt _ _ j (by simpa using hj), List.getElem_map]
        congr 2
        exact getD_of_lt _ _ i (by simpa using hi2)
    show (⟨(t.cols.map Column.name).getD j "",
      (inferCells (((List.range t.nrows).map
          (fun i => t.cols.map (fun c => encodeCell (c.cells.getD i Cell.null)))).map
          (fun r => parseField (r.getD j "")))).1,
      (inferCells (((List.range t.nrows).map
          (fun i => t.cols.map (fun c => encodeCell (c.cells.getD i Cell.null)))).map
          (fun r => parseField (r.getD j "")))).2⟩ : Column) = decCol (t.cols[j])
    rw [hname, hcells]
    rfl

/-- The core round-trip: a well-typed table, encoded to the text format,
decoded with the sentinel convention and coerced with its declared column
types, comes back exactly. -/
theorem decode_encode_cast (t : Table) (cts : List (String × String))
    (hwt : wellTypedTable t cts = true) :
    cast_column_to_types (decodeTable (encodeTable t)) (some cts) = Except.ok t := by
  rw [wellTypedTable, Bool.and_eq_true, Bool.and_eq_true] at hwt
  obtain ⟨⟨hcols, hkeys⟩, hrect⟩ := hwt
  have hrect' : ∀ c ∈ t.cols, c.cells.length = t.nrows := by
    intro c hc
    have := List.all_eq_true.mp hrect c hc
    simpa using this
  have hcols' : ∀ c ∈ t.cols, wellTypedColumn cts c = true := List.all_eq_true.mp hcols
  rw [decode_encode_cols t hrect']
  rw [cast_column_to_types]
  by_cases he : cts.isEmpty
  · rw [if_pos he]
    have hnil : cts = [] := by simpa using he
    have : ∀ c ∈ t.cols, decCol c = c := by
      intro c hc
      exact decCol_undeclared cts c (by rw [hnil]; rfl) (hcols' c hc)
    rw [map_self _ _ this]
  · rw [if_neg he]
    have hnames : (t.cols.map decCol).map Column.name = t.cols.map Column.name := by
      rw [List.map_map]
      exact List.map_congr_left (fun c _ => decCol_name c)
    have hguard : cts.all
        (fun p => (((⟨t.cols.map decCol⟩ : Table).cols.map Column.name).contains p.1)) = true := by
      show cts.all (fun p => (((t.cols.map decCol).map Column.name).contains p.1)) = true
      rw [hnames]
      exact hkeys
    rw [if_pos hguard]
    show (match castCols cts (t.cols.map decCol) with
      | Except.error cause =>
          Except.error (CoercionFailure.mk "Failed to apply column types to dataset" cause)
      | Except.ok cols => Except.ok (Table.mk cols)) = Except.ok t
    rw [castCols_decoded cts t.cols hcols']

/-! ## Computation lemmas for the save and load pipelines -/

theorem findVal_head {α : Type} (k : String) (v : α) (l : List (String × α)) :
    findVal k ((k, v) :: l) = some v := by
  rw [findVal, if_pos rfl]

theorem save_ok_eq (validate : Dataset → Bool) (d : Dataset) (pk : String) (w : World)
    (hv : validate d = true) :
    Dataset.save validate d pk w =
      ({ w with
          nextId := w.nextId + 1,
          remote := (artifactPath pk (freshId w),
            ⟨compressBytes (encodeTable d.df), d.meta⟩) :: w.remote,
          registry := (artifactPath pk (freshId w),
            (d.meta, byteSize (encodeTable d.df),
              byteSize (compressBytes (encodeTable d.df)))) :: w.registry },
        Except.ok (freshId w)) := by
  rw [Dataset.save, if_pos hv]

theorem save_fail_eq (validate : Dataset → Bool) (d : Dataset) (pk : String) (w : World)
    (hv : validate d = false) :
    Dataset.save validate d pk w = (w, Except.error SaveError.validation) := by
  rw [Dataset.save, if_neg (by rw [hv]; exact Bool.false_ne_true)]

theorem load_local_missing (pk id : String) (w : World)
    (h : findVal (localDirPath pk id) w.cache = none) :
    Dataset.load none pk id w = (w, Except.error LoadError.missingCache) := by
  rw [Dataset.load, h]

theorem load_local_eq (pk id : String) (w : World) (art : Artifact)
    (h : findVal (localDirPath pk id) w.cache = some art) :
    Dataset.load none pk id w = finishLoad w art art.metaFile := by
  rw [Dataset.load, h]

theorem load_client_noRemote (pk id : String) (w : World)
    (h : findVal (artifactPath pk id) w.remote = none) :
    Dataset.load (some ()) pk id w = (w, Except.error LoadError.download) := by
  rw [Dataset.load, h]

theorem load_client_noRegistry (pk id : String) (w : World) (art : Artifact)
    (hr : findVal (artifactPath pk id) w.remote = some art)
    (hg : findVal (artifactPath pk id) w.registry = none) :
    Dataset.load (some ()) pk id w =
      ({ w with cache := (localDirPath pk id, art) :: w.cache },
        Except.error LoadError.registryMiss) := by
  rw [Dataset.load, hr]
  show (match findVal (artifactPath pk id) w.registry with
    | none => ({ w with cache := (localDirPath pk id, art) :: w.cache },
        Except.error LoadError.registryMiss)
    | some info =>
        finishLoad { w with cache := (localDirPath pk id, art) :: w.cache } art info.1)
    = ({ w with cache := (localDirPath pk id, art) :: w.cache },
        Except.error LoadError.registryMiss)
  rw [hg]

theorem load_client_eq (pk id : String) (w : World) (art : Artifact)
    (info : DatasetMeta × Nat × Nat)
    (hr : findVal (artifactPath pk id) w.remote = some art)
    (hg : findVal (artifactPath pk id) w.registry = some info) :
    Dataset.load (some ()) pk id w =
      finishLoad { w with cache := (localDirPath pk id, art) :: w.cache } art info.1 := by
  rw [Dataset.load, hr]
  show (match findVal (artifactPath pk id) w.registry with
    | none => ({ w with cache := (localDirPath pk id, art) :: w.cache },
        Except.error LoadError.registryMiss)
    | some info =>
        finishLoad { w with cache := (localDirPath pk id, art) :: w.cache } art info.1)
    = finishLoad { w with cache := (localDirPath pk id, art) :: w.cache } art info.1
  rw [hg]

theorem finishLoad_ok (w : World) (art : Artifact) (meta : DatasetMeta) (df : Table)
    (h : cast_column_to_types (decodeTable (decompressBytes art.data)) meta.column_types
      = Except.ok df) :
    finishLoad w art meta =
      (w, Except.ok ⟨meta.name, meta.target, meta.feature_types, meta.column_types, df⟩) := by
  rw [finishLoad, h]

theorem finishLoad_error (w : World) (art : Artifact) (meta : DatasetMeta) (e : CoercionFailure)
    (h : cast_column_to_types (decodeTable (decompressBytes art.data)) meta.column_types
      = Except.error e) :
    finishLoad w art meta = (w, Except.error (LoadError.coercion e)) := by
  rw [finishLoad, h]

/-- In a well-typed table, every column named in `column_types` already
carries the declared physical type. -/
theorem wellTyped_dtype (t : Table) (cts : List (String × String))
    (hwt : wellTypedTable t cts = true) :
    ∀ c ∈ t.cols, ∀ ty, findVal c.name cts = some ty → c.dtype = ty := by
  intro c hc ty hf
  rw [wellTypedTable, Bool.and_eq_true, Bool.and_eq_true] at hwt
  have h := List.all_eq_true.mp hwt.1.1 c hc
  rw [wellTypedColumn, hf] at h
  have h' : (if ty = "int64" then c.dtype == "int64" && c.cells.all isIntCell
      else if ty = "object" then c.dtype == "object" && c.cells.all objCell
      else false) = true := h
  by_cases hty : ty = "int64"
  · subst hty
    rw [if_pos rfl, Bool.and_eq_true] at h'
    simpa using h'.1
  · by_cases hty2 : ty = "object"
    · subst hty2
      rw [if_neg hty, if_pos rfl, Bool.and_eq_true] at h'
      simpa using h'.1
    · rw [if_neg hty, if_neg hty2] at h'
      exact absurd h' (by simp)

/-! ## Behaviour of `cast_column_to_types` on its own -/

/-- Success of the per-column conversion step of `astype` for one column. -/
def colCastOk (cts : List (String × String)) (c : Column) : Bool :=
  match findVal c.name cts with
  | none => true
  | some ty => (castColumn ty c).isSome

/-- The column `astype` produces for one input column when it succeeds. -/
def castColFn (cts : List (String × String)) (c : Column) : Column :=
  match findVal c.name cts with
  | none => c
  | some ty => (castColumn ty c).getD c

theorem castCells_length (ty : String) (cs : List Cell) :
    ∀ cs2, castCells ty cs = some cs2 → cs2.length = cs.length := by
  induction cs with
  | nil =>
    intro cs2 h
    rw [castCells] at h
    cases h
    rfl
  | cons c rest ih =>
    intro cs2 h
    rw [castCells] at h
    cases hc : castCell ty c with
    | none => rw [hc] at h; exact Option.noConfusion h
    | some c2 =>
      cases hr : castCells ty rest with
      | none => rw [hc, hr] at h; exact Option.noConfusion h
      | some r2 =>
        rw [hc, hr] at h
        cases h
        rw [List.length_cons, List.length_cons, ih r2 hr]

theorem castColumn_spec (ty : String) (c c2 : Column) (h : castColumn ty c = some c2) :
    c2.name = c.name ∧ c2.dtype = ty ∧ c2.cells.length = c.cells.length := by
  rw [castColumn] at h
  cases hcs : castCells ty c.cells with
  | none => rw [hcs] at h; exact Option.noConfusion h
  | some cs2 =>
    rw [hcs] at h
    cases h
    exact ⟨rfl, rfl, castCells_length ty c.cells cs2 hcs⟩

theorem castColFn_declared (cts : List (String × String)) (c : Column) (ty : String)
    (hf : findVal c.name cts = some ty) :
    castColFn cts c = (castColumn ty c).getD c := by
  rw [castColFn, hf]

theorem castColFn_undeclared (cts : List (String × String)) (c : Column)
    (hf : findVal c.name cts = none) : castColFn cts c = c := by
  rw [castColFn, hf]

theorem colCastOk_declared (cts : List (String × String)) (c : Column) (ty : String)
    (hf : findVal c.name cts = some ty) (hok : colCastOk cts c = true) :
    (castColumn ty c).isSome = true := by
  have h := hok
  rw [colCastOk, hf] at h
  exact h

theorem castColFn_name (cts : List (String × String)) (c : Column)
    (hok : colCastOk cts c = true) : (castColFn cts c).name = c.name := by
  cases hf : findVal c.name cts with
  | none => rw [castColFn_undeclared cts c hf]
  | some ty =>
    obtain ⟨c2, hc2⟩ := Option.isSome_iff_exists.mp (colCastOk_declared cts c ty hf hok)
    rw [castColFn_declared cts c ty hf, hc2]
    exact (castColumn_spec ty c c2 hc2).1

theorem castColFn_length (cts : List (String × String)) (c : Column)
    (hok : colCastOk cts c = true) : (castColFn cts c).cells.length = c.cells.length := by
  cases hf : findVal c.name cts with
  | none => rw [castColFn_undeclared cts c hf]
  | some ty =>
    obtain ⟨c2, hc2⟩ := Option.isSome_iff_exists.mp (colCastOk_declared cts c ty hf hok)
    rw [castColFn_declared cts c ty hf, hc2]
    exact (castColumn_spec ty c c2 hc2).2.2

theorem castColFn_dtype (cts : List (String × String)) (c : Column) (ty : String)
    (hf : findVal c.name cts = some ty) (hok : colCastOk cts c = true) :
    (castColFn cts c).dtype = ty := by
  obtain ⟨c2, hc2⟩ := Option.isSome_iff_exists.mp (colCastOk_declared cts c ty hf hok)
  rw [castColFn_declared cts c ty hf, hc2]
  exact (castColumn_spec ty c c2 hc2).2.1

theorem castCols_cons_declared (cts : List (String × String)) (c : Column)
    (rest : List Column) (ty : String) (hf : findVal c.name cts = some ty) :
    castCols cts (c :: rest) =
      (match castColumn ty c with
        | none => Except.error ("cannot cast column " ++ c.name ++ " to " ++ ty)
        | some c' => Except.map (fun r => c' :: r) (castCols cts rest)) := by
  rw [castCols, hf]

theorem castCols_cons_undeclared (cts : List (String × String)) (c : Column)
    (rest : List Column) (hf : findVal c.name cts = none) :
    castCols cts (c :: rest) = Except.map (fun r => c :: r) (castCols cts rest) := by
  rw [castCols, hf]

theorem castCols_map (cts : List (String × String)) (cols : List Column)
    (h : ∀ c ∈ cols, colCastOk cts c = true) :
    castCols cts cols = Except.ok (cols.map (castColFn cts)) := by
  induction cols with
  | nil => rfl
  | cons c rest ih =>
    have hc := h c (List.mem_cons_self c rest)
    have hrest := ih (fun x hx => h x (List.mem_cons_of_mem c hx))
    rw [List.map_cons]
    cases hf : findVal c.name cts with
    | none =>
      rw [castCols_cons_undeclared cts c rest hf, hrest,
        castColFn_undeclared cts c hf]
      rfl
    | some ty =>
      obtain ⟨c2, hc2⟩ := Option.isSome_iff_exists.mp (colCastOk_declared cts c ty hf hc)
      rw [castCols_cons_declared cts c rest ty hf, hc2, hrest,
        castColFn_declared cts c ty hf, hc2]
      rfl

theorem castCols_fails (cts : List (String × String)) (cols : List Column) (c : Column)
    (ty : String) (hm : c ∈ cols) (hf : findVal c.name cts = some ty)
    (hcc : castColumn ty c = none) :
    ∃ s, castCols cts cols = Except.error s := by
  induction cols with
  | nil => cases hm
  | cons a rest ih =>
    rcases List.mem_cons.mp hm with h1 | h2
    · subst h1
      rw [castCols_cons_declared cts c rest ty hf, hcc]
      exact ⟨_, rfl⟩
    · cases hfa : findVal a.name cts with
      | none =>
        obtain ⟨s, hs⟩ := ih h2
        rw [castCols_cons_undeclared cts a rest hfa, hs]
        exact ⟨s, rfl⟩
      | some tya =>
        cases hca : castColumn tya a with
        | none =>
          rw [castCols_cons_declared cts a rest tya hfa, hca]
          exact ⟨_, rfl⟩
        | some a2 =>
          obtain ⟨s, hs⟩ := ih h2
          rw [castCols_cons_declared cts a rest tya hfa, hca, hs]
          exact ⟨s, rfl⟩

theorem cast_error_message (df : Table) (cts0 : Option (List (String × String)))
    (e : CoercionFailure) (h : cast_column_to_types df cts0 = Except.error e) :
    e.message = "Failed to apply column types to dataset" := by
  cases cts0 with
  | none =>
    rw [cast_column_to_types] at h
    exact Except.noConfusion h
  | some cts =>
    rw [cast_column_to_types] at h
    by_cases he : cts.isEmpty = true
    · rw [if_pos he] at h
      exact Except.noConfusion h
    · rw [if_neg he] at h
      by_cases hg : cts.all (fun p => (df.cols.map Column.name).contains p.1) = true
      · rw [if_pos hg] at h
        cases hcc : castCols cts df.cols with
        | error s =>
          rw [hcc] at h
          injection h with h1
          rw [← h1]
        | ok cols =>
          rw [hcc] at h
          exact Except.noConfusion h
      · rw [if_neg hg] at h
        injection h with h1
        rw [← h1]

theorem cast_column_to_types_fails (df : Table) (cts : List (String × String)) (c : Column)
    (ty : String) (hm : c ∈ df.cols) (hf : findVal c.name cts = some ty)
    (hcc : castColumn ty c = none) :
    ∃ e, cast_column_to_types df (some cts) = Except.error e := by
  rw [cast_column_to_types]
  have hne : cts.isEmpty = false := by
    cases cts with
    | nil => rw [findVal] at hf; exact Option.noConfusion hf
    | cons p rest => rfl
  rw [if_neg (by rw [hne]; exact Bool.false_ne_true)]
  by_cases hg : cts.all (fun p => (df.cols.map Column.name).contains p.1) = true
  · rw [if_pos hg]
    obtain ⟨s, hs⟩ := castCols_fails cts df.cols c ty hm hf hcc
    rw [hs]
    exact ⟨_, rfl⟩
  · rw [if_neg hg]
    exact ⟨_, rfl⟩

/-! ## Concrete example data used by the witnesses -/

/-- Example table of the spec's scenario (no missing value in the `int64`
column, as a numpy `int64` column cannot hold one). -/
def exTable : Table :=
  ⟨[⟨"age", "int64", [Cell.int 25, Cell.int 30]⟩,
    ⟨"city", "object", [Cell.str "NY", Cell.null]⟩]⟩

/-- Example declared column types. -/
def exCT : List (String × String) := [("age", "int64"), ("city", "object")]

/-- Example dataset wrapping `exTable`. -/
def exDataset : Dataset :=
  ⟨some "ds", some "age", some [("city", "categorical")], some exCT, exTable⟩

/-- Empty external world. -/
def exWorld : World := ⟨[], [], [], 0⟩

/-- External validator that accepts everything. -/
def alwaysValid : Dataset → Bool := fun _ => true

/-- External validator that rejects everything. -/
def neverValid : Dataset → Bool := fun _ => false

/-- Example object table holding a true missing value and an empty string. -/
def exTable2 : Table := ⟨[⟨"note", "object", [Cell.null, Cell.str ""]⟩]⟩

/-- Declared column types of `exTable2`. -/
def exCT2 : List (String × String) := [("note", "object")]

/-- Metadata declaring a numeric type for a column of non-numeric text. -/
def badMeta : DatasetMeta := ⟨none, none, none, some [("age", "int64")]⟩

/-- A stored artifact whose data cannot satisfy its declared types. -/
def badArtifact : Artifact := ⟨[["age"], ["abc"]], badMeta⟩

/-- World holding only the uncoercible artifact. -/
def badWorld : World :=
  ⟨[(artifactPath "p" "x", badArtifact)],
    [(artifactPath "p" "x", (badMeta, 3, 3))], [], 0⟩

/-- The coercion failure the uncoercible artifact produces. -/
def badFailure : CoercionFailure :=
  ⟨"Failed to apply column types to dataset", "cannot cast column age to int64"⟩

/-! ## The claims -/

/-- C1: for every table with declared `column_types` (well-typed for them),
loading the dataset previously saved from it yields a table equal to the
original after type coercion — values and column order preserved — and
every column named in `column_types` carries exactly the declared physical
type. -/
theorem save_then_load (validate : Dataset → Bool) (d : Dataset) (pk : String)
    (w : World) (df2 : Table) (hv : validate d = true)
    (hcast : cast_column_to_types (decodeTable (encodeTable d.df)) d.column_types
      = Except.ok df2) :
    ∃ w1 w2, Dataset.save validate d pk w = (w1, Except.ok (freshId w))
      ∧ Dataset.load (some ()) pk (freshId w) w1
        = (w2, Except.ok ⟨d.name, d.target, d.feature_types, d.column_types, df2⟩) := by
  have hsave := save_ok_eq validate d pk w hv
  have hload : Dataset.load (some ()) pk (freshId w)
      { w with
          nextId := w.nextId + 1,
          remote := (artifactPath pk (freshId w),
            ⟨compressBytes (encodeTable d.df), d.meta⟩) :: w.remote,
          registry := (artifactPath pk (freshId w),
            (d.meta, byteSize (encodeTable d.df),
              byteSize (compressBytes (encodeTable d.df)))) :: w.registry }
      = ({ w with
            nextId := w.nextId + 1,
            remote := (artifactPath pk (freshId w),
              ⟨compressBytes (encodeTable d.df), d.meta⟩) :: w.remote,
            registry := (artifactPath pk (freshId w),
              (d.meta, byteSize (encodeTable d.df),
                byteSize (compressBytes (encodeTable d.df)))) :: w.registry,
            cache := (localDirPath pk (freshId w),
              (⟨compressBytes (encodeTable d.df), d.meta⟩ : Artifact)) :: w.cache },
          Except.ok ⟨d.name, d.target, d.feature_types, d.column_types, df2⟩) := by
    rw [load_client_eq pk (freshId w)
        { w with
            nextId := w.nextId + 1,
            remote := (artifactPath pk (freshId w),
              ⟨compressBytes (encodeTable d.df), d.meta⟩) :: w.remote,
            registry := (artifactPath pk (freshId w),
              (d.meta, byteSize (encodeTable d.df),
                byteSize (compressBytes (encodeTable d.df)))) :: w.registry }
        ⟨compressBytes (encodeTable d.df), d.meta⟩
        (d.meta, byteSize (encodeTable d.df), byteSize (compressBytes (encodeTable d.df)))
        (findVal_head _ _ _) (findVal_head _ _ _),
      finishLoad_ok _ _ _ df2 (by exact hcast)]
    exact rfl
  exact ⟨_, _, hsave, hload⟩

/-- C1: for every table with declared `column_types` (well-typed for them),
loading the dataset previously saved from it yields a table equal to the
original after type coercion — values and column order preserved — and
every column named in `column_types` carries exactly the declared physical
type. -/
theorem c1_roundtrip_identity (validate : Dataset → Bool) (d : Dataset) (pk : String)
    (w : World) (cts : List (String × String))
    (hv : validate d = true) (hct : d.column_types = some cts)
    (hwt : wellTypedTable d.df cts = true) :
    ∃ w1 w2 d2,
      Dataset.save validate d pk w = (w1, Except.ok (freshId w))
      ∧ Dataset.load (some ()) pk (freshId w) w1 = (w2, Except.ok d2)
      ∧ d2.df = d.df
      ∧ (∀ c ∈ d2.df.cols, ∀ ty, findVal c.name cts = some ty → c.dtype = ty) := by
  have hcast : cast_column_to_types (decodeTable (encodeTable d.df)) d.column_types
      = Except.ok d.df := by
    rw [hct]
    exact decode_encode_cast d.df cts hwt
  obtain ⟨w1, w2, h1, h2⟩ := save_then_load validate d pk w d.df hv hcast
  exact ⟨w1, w2, d, h1, h2, rfl, wellTyped_dtype d.df cts hwt⟩

/-- Witness for C1 at the spec's example scenario. -/
theorem c1_witness : ∃ w1 w2 d2,
    Dataset.save alwaysValid exDataset "proj1" exWorld = (w1, Except.ok (freshId exWorld))
    ∧ Dataset.load (some ()) "proj1" (freshId exWorld) w1 = (w2, Except.ok d2)
    ∧ d2.df = exDataset.df
    ∧ (∀ c ∈ d2.df.cols, ∀ ty, findVal c.name exCT = some ty → c.dtype = ty) :=
  c1_roundtrip_identity alwaysValid exDataset "proj1" exWorld exCT rfl rfl (by decide)

/-- C2: a genuinely missing cell of a well-typed table is reported missing
again after encode and decode — not as the sentinel text, not as the empty
string, not as zero; only the reserved sentinel token decodes to missing,
so an empty string round-trips as an empty string, distinct from missing. -/
theorem c2_missing_value_fidelity (t : Table) (cts : List (String × String)) (j i : Nat)
    (hwt : wellTypedTable t cts = true) :
    ∃ res, cast_column_to_types (decodeTable (encodeTable t)) (some cts) = Except.ok res
      ∧ (t.cell? j i = some Cell.null → res.cell? j i = some Cell.null)
      ∧ (t.cell? j i = some (Cell.str "") → res.cell? j i = some (Cell.str ""))
      ∧ (∀ s, parseField s = Cell.null ↔ s = naSentinel)
      ∧ Cell.null ≠ Cell.str naSentinel ∧ Cell.null ≠ Cell.str ""
      ∧ Cell.null ≠ Cell.int 0 := by
  refine ⟨t, decode_encode_cast t cts hwt, fun h => h, fun h => h, ?_,
    by decide, by decide, by decide⟩
  intro s
  rw [parseField]
  by_cases hs : s = naSentinel
  · rw [if_pos hs]
    simp [hs]
  · rw [if_neg hs]
    simp [hs]

/-- Witness for C2 on a table holding a missing value and an empty string. -/
theorem c2_witness : ∃ res,
    cast_column_to_types (decodeTable (encodeTable exTable2)) (some exCT2) = Except.ok res
    ∧ (exTable2.cell? 0 0 = some Cell.null → res.cell? 0 0 = some Cell.null)
    ∧ (exTable2.cell? 0 0 = some (Cell.str "") → res.cell? 0 0 = some (Cell.str ""))
    ∧ (∀ s, parseField s = Cell.null ↔ s = naSentinel)
    ∧ Cell.null ≠ Cell.str naSentinel ∧ Cell.null ≠ Cell.str ""
    ∧ Cell.null ≠ Cell.int 0 :=
  c2_missing_value_fidelity exTable2 exCT2 0 0 (by decide)

/-- C3: the metadata fields `name`, `target`, `feature_types` and
`column_types` of the Dataset returned by a load matching a save are equal,
as structured data, to those of the Dataset that was saved. -/
theorem c3_metadata_fidelity (validate : Dataset → Bool) (d : Dataset) (pk : String)
    (w w1 w2 : World) (id : String) (d2 : Dataset)
    (hsave : Dataset.save validate d pk w = (w1, Except.ok id))
    (hload : Dataset.load (some ()) pk id w1 = (w2, Except.ok d2)) :
    d2.name = d.name ∧ d2.target = d.target ∧ d2.feature_types = d.feature_types
      ∧ d2.column_types = d.column_types := by
  by_cases hv : validate d = true
  · rw [save_ok_eq validate d pk w hv] at hsave
    injection hsave with h1 h2
    injection h2 with h3
    subst h1
    subst h3
    rw [load_client_eq pk (freshId w)
        { w with
            nextId := w.nextId + 1,
            remote := (artifactPath pk (freshId w),
              ⟨compressBytes (encodeTable d.df), d.meta⟩) :: w.remote,
            registry := (artifactPath pk (freshId w),
              (d.meta, byteSize (encodeTable d.df),
                byteSize (compressBytes (encodeTable d.df)))) :: w.registry }
        ⟨compressBytes (encodeTable d.df), d.meta⟩
        (d.meta, byteSize (encodeTable d.df), byteSize (compressBytes (encodeTable d.df)))
        (findVal_head _ _ _) (findVal_head _ _ _)] at hload
    cases hcast : cast_column_to_types (decodeTable (encodeTable d.df))
        d.meta.column_types with
    | error e =>
      rw [finishLoad_error _ _ _ e (by exact hcast)] at hload
      injection hload with ha hb
      exact Except.noConfusion hb
    | ok df =>
      rw [finishLoad_ok _ _ _ df (by exact hcast)] at hload
      injection hload with ha hb
      injection hb with hc2
      rw [← hc2]
      exact ⟨rfl, rfl, rfl, rfl⟩
  · have hv' : validate d = false := by
      revert hv
      cases validate d <;> simp
    rw [save_fail_eq validate d pk w hv'] at hsave
    injection hsave with h1 h2
    exact Except.noConfusion h2

/-- Witness for C3 at the example scenario. -/
theorem c3_witness :
    exDataset.name = exDataset.name ∧ exDataset.target = exDataset.target
      ∧ exDataset.feature_types = exDataset.feature_types
      ∧ exDataset.column_types = exDataset.column_types :=
  c3_metadata_fidelity alwaysValid exDataset "proj1" exWorld
    (Dataset.save alwaysValid exDataset "proj1" exWorld).1
    (Dataset.load (some ()) "proj1" (freshId exWorld)
      (Dataset.save alwaysValid exDataset "proj1" exWorld).1).1
    (freshId exWorld) exDataset (by decide) (by decide)

/-- C4: when coercion of a named column fails, the whole cast fails with
the fixed descriptive message wrapping the underlying conversion failure,
no partially-typed table is returned, and the load whose cast fails
surfaces the coercion error and returns no Dataset. -/
theorem c4_coercion_failure_propagation (w : World) (pk id : String) (art : Artifact)
    (info : DatasetMeta × Nat × Nat) (e : CoercionFailure)
    (hr : findVal (artifactPath pk id) w.remote = some art)
    (hg : findVal (artifactPath pk id) w.registry = some info)
    (hc : cast_column_to_types (decodeTable (decompressBytes art.data)) info.1.column_types
      = Except.error e) :
    Dataset.load (some ()) pk id w
      = ({ w with cache := (localDirPath pk id, art) :: w.cache },
          Except.error (LoadError.coercion e))
    ∧ e.message = "Failed to apply column types to dataset"
    ∧ (∀ df cts c ty, c ∈ Table.cols df → findVal (Column.name c) cts = some ty →
        castColumn ty c = none →
        ∃ e2, cast_column_to_types df (some cts) = Except.error e2) := by
  refine ⟨?_, cast_error_message _ _ e hc, ?_⟩
  · rw [load_client_eq pk id w art info hr hg]
    exact finishLoad_error _ art info.1 e hc
  · intro df cts c ty hm hf hcc
    exact cast_column_to_types_fails df cts c ty hm hf hcc

/-- Witness for C4 on non-numeric text declared `int64`. -/
theorem c4_witness :
    Dataset.load (some ()) "p" "x" badWorld
      = ({ badWorld with cache := (localDirPath "p" "x", badArtifact) :: badWorld.cache },
          Except.error (LoadError.coercion badFailure))
    ∧ badFailure.message = "Failed to apply column types to dataset"
    ∧ (∀ df cts c ty, c ∈ Table.cols df → findVal (Column.name c) cts = some ty →
        castColumn ty c = none →
        ∃ e2, cast_column_to_types df (some cts) = Except.error e2) :=
  c4_coercion_failure_propagation badWorld "p" "x" badArtifact (badMeta, 3, 3) badFailure
    (by decide) (by decide) (by decide)

/-- C5: a local-only load (no client) whose deterministic cache directory
does not exist fails with the fatal assertion-style error and never returns
a Dataset. -/
theorem c5_missing_cache_fatal (pk id : String) (w : World)
    (h : findVal (localDirPath pk id) w.cache = none) :
    Dataset.load none pk id w = (w, Except.error LoadError.missingCache)
      ∧ (∀ w2 d2, Dataset.load none pk id w = (w2, Except.ok d2) → False) := by
  refine ⟨load_local_missing pk id w h, ?_⟩
  intro w2 d2 hcontra
  rw [load_local_missing pk id w h] at hcontra
  injection hcontra with h1 h2
  exact Except.noConfusion h2

/-- Witness for C5 on the empty world. -/
theorem c5_witness :
    Dataset.load none "proj1" "nope" exWorld = (exWorld, Except.error LoadError.missingCache)
      ∧ (∀ w2 d2, Dataset.load none "proj1" "nope" exWorld = (w2, Except.ok d2) → False) :=
  c5_missing_cache_fatal "proj1" "nope" exWorld rfl

/-- C6: a failed semantic validation aborts `save` immediately with the
external world untouched — no identifier drawn, nothing uploaded, nothing
registered — while a successful save returns the freshly generated
identifier. -/
theorem c6_validation_aborts_save (validate : Dataset → Bool) (d : Dataset) (pk : String)
    (w : World) :
    (validate d = false → Dataset.save validate d pk w = (w, Except.error SaveError.validation))
    ∧ (validate d = true → (Dataset.save validate d pk w).2 = Except.ok (freshId w)) := by
  constructor
  · intro hv
    exact save_fail_eq validate d pk w hv
  · intro hv
    rw [save_ok_eq validate d pk w hv]

/-- Witness for C6 with a rejecting and an accepting validator. -/
theorem c6_witness :
    Dataset.save neverValid exDataset "proj1" exWorld
      = (exWorld, Except.error SaveError.validation)
    ∧ (Dataset.save alwaysValid exDataset "proj1" exWorld).2 = Except.ok (freshId exWorld) :=
  ⟨(c6_validation_aborts_save neverValid exDataset "proj1" exWorld).1 rfl,
    (c6_validation_aborts_save alwaysValid exDataset "proj1" exWorld).2 rfl⟩

/-- C7: when every named column exists and converts, `cast` succeeds and
forces each column named in `column_types` to the declared physical type,
leaves every column absent from `column_types` untouched, and preserves
column order, column count and every column's row count. -/
theorem c7_cast_contract (df : Table) (cts : List (String × String))
    (hkeys : cts.all (fun p => (df.cols.map Column.name).contains p.1) = true)
    (hok : df.cols.all (colCastOk cts) = true) :
    ∃ t2, cast_column_to_types df (some cts) = Except.ok t2
      ∧ t2.cols.map Column.name = df.cols.map Column.name
      ∧ t2.cols.length = df.cols.length
      ∧ (∀ j, j < df.cols.length →
          (t2.cols.getD j dummyCol).cells.length = (df.cols.getD j dummyCol).cells.length)
      ∧ (∀ j, j < df.cols.length → findVal (df.cols.getD j dummyCol).name cts = none →
          t2.cols.getD j dummyCol = df.cols.getD j dummyCol)
      ∧ (∀ j, j < df.cols.length → ∀ ty,
          findVal (df.cols.getD j dummyCol).name cts = some ty →
          (t2.cols.getD j dummyCol).dtype = ty) := by
  have hok' : ∀ c ∈ df.cols, colCastOk cts c = true := List.all_eq_true.mp hok
  have hmap_eq : cast_column_to_types df (some cts)
      = Except.ok ⟨df.cols.map (castColFn cts)⟩ := by
    rw [cast_column_to_types]
    by_cases he : cts.isEmpty = true
    · rw [if_pos he]
      have hnil : cts = [] := by simpa using he
      subst hnil
      rw [map_self _ _ (fun c _ => castColFn_undeclared [] c rfl)]
    · rw [if_neg he, if_pos hkeys, castCols_map cts df.cols hok']
  refine ⟨⟨df.cols.map (castColFn cts)⟩, hmap_eq, ?_, ?_, ?_, ?_, ?_⟩
  · show (df.cols.map (castColFn cts)).map Column.name = df.cols.map Column.name
    rw [List.map_map]
    exact List.map_congr_left (fun c hc => castColFn_name cts c (hok' c hc))
  · show (df.cols.map (castColFn cts)).length = df.cols.length
    exact List.length_map _ _
  · intro j hj
    show ((df.cols.map (castColFn cts)).getD j dummyCol).cells.length = _
    rw [getD_of_lt _ _ j (by simpa using hj), List.getElem_map, getD_of_lt _ _ j hj]
    exact castColFn_length cts _ (hok' _ (List.getElem_mem hj))
  · intro j hj hf
    rw [getD_of_lt _ _ j hj] at hf
    show (df.cols.map (castColFn cts)).getD j dummyCol = df.cols.getD j dummyCol
    rw [getD_of_lt _ _ j (by simpa using hj), List.getElem_map, getD_of_lt _ _ j hj]
    exact castColFn_undeclared cts _ hf
  · intro j hj ty hf
    rw [getD_of_lt _ _ j hj] at hf
    show ((df.cols.map (castColFn cts)).getD j dummyCol).dtype = ty
    rw [getD_of_lt _ _ j (by simpa using hj), List.getElem_map]
    exact castColFn_dtype cts _ ty hf (hok' _ (List.getElem_mem hj))

/-- Witness for C7 on the example table. -/
theorem c7_witness : ∃ t2, cast_column_to_types exTable (some exCT) = Except.ok t2
    ∧ t2.cols.map Column.name = exTable.cols.map Column.name
    ∧ t2.cols.length = exTable.cols.length
    ∧ (∀ j, j < exTable.cols.length →
        (t2.cols.getD j dummyCol).cells.length = (exTable.cols.getD j dummyCol).cells.length)
    ∧ (∀ j, j < exTable.cols.length → findVal (exTable.cols.getD j dummyCol).name exCT = none →
        t2.cols.getD j dummyCol = exTable.cols.getD j dummyCol)
    ∧ (∀ j, j < exTable.cols.length → ∀ ty,
        findVal (exTable.cols.getD j dummyCol).name exCT = some ty →
        (t2.cols.getD j dummyCol).dtype = ty) :=
  c7_cast_contract exTable exCT (by decide) (by decide)

/-- C8: slicing with a transform returns a dataset whose four metadata
fields equal the original's and whose table is the transform of the
original table; the original dataset value is left untouched (the
embedding is pure, so `d` itself is unchanged by construction). -/
theorem c8_slice_independence (d : Dataset) (f : Table → Table) :
    (d.slice (some f)).name = d.name ∧ (d.slice (some f)).target = d.target
      ∧ (d.slice (some f)).feature_types = d.feature_types
      ∧ (d.slice (some f)).column_types = d.column_types
      ∧ (d.slice (some f)).df = f d.df :=
  ⟨rfl, rfl, rfl, rfl, rfl⟩

/-- C9: slicing with an unset transform returns the very same dataset. -/
theorem c9_slice_none_identity (d : Dataset) : d.slice none = d := rfl

/-- C10: the table of every dataset this component produces is a genuine
table, never an absent value — the constructor stores exactly the table it
is given (its `df` parameter is non-optional, per the source annotation),
both slice branches produce a dataset whose table is a total function of
the input table, and every successful load returns a dataset whose table
is the (total) output of the type coercion.  `save` constructs no dataset,
so it preserves the invariant trivially. -/
theorem c10_table_never_none (tbl : Table) (nm tg : Option String)
    (ft ct : Option (List (String × String))) (d : Dataset) (f : Table → Table)
    (cl : Option Unit) (pk id : String) (w : World) :
    (Dataset.init tbl nm tg ft ct).df = tbl
    ∧ (d.slice (some f)).df = f d.df
    ∧ (d.slice none).df = d.df
    ∧ (∀ w2 d2, Dataset.load cl pk id w = (w2, Except.ok d2) →
        ∃ (art : Artifact) (meta : DatasetMeta),
          cast_column_to_types (decodeTable (decompressBytes art.data))
            meta.column_types = Except.ok d2.df) := by
  refine ⟨rfl, rfl, rfl, ?_⟩
  intro w2 d2 h
  cases cl with
  | none =>
    cases hc : findVal (localDirPath pk id) w.cache with
    | none =>
      rw [load_local_missing pk id w hc] at h
      injection h with h1 h2
      exact Except.noConfusion h2
    | some art =>
      rw [load_local_eq pk id w art hc] at h
      cases hcast : cast_column_to_types (decodeTable (decompressBytes art.data))
          art.metaFile.column_types with
      | error e =>
        rw [finishLoad_error w art art.metaFile e hcast] at h
        injection h with h1 h2
        exact Except.noConfusion h2
      | ok df =>
        rw [finishLoad_ok w art art.metaFile df hcast] at h
        injection h with h1 h2
        injection h2 with h3
        refine ⟨art, art.metaFile, ?_⟩
        rw [← h3]
        exact hcast
  | some u =>
    cases u
    cases hr : findVal (artifactPath pk id) w.remote with
    | none =>
      rw [load_client_noRemote pk id w hr] at h
      injection h with h1 h2
      exact Except.noConfusion h2
    | some art =>
      cases hg : findVal (artifactPath pk id) w.registry with
      | none =>
        rw [load_client_noRegistry pk id w art hr hg] at h
        injection h with h1 h2
        exact Except.noConfusion h2
      | some info =>
        rw [load_client_eq pk id w art info hr hg] at h
        cases hcast : cast_column_to_types (decodeTable (decompressBytes art.data))
            info.1.column_types with
        | error e =>
          rw [finishLoad_error _ art info.1 e hcast] at h
          injection h with h1 h2
          exact Except.noConfusion h2
        | ok df =>
          rw [finishLoad_ok _ art info.1 df hcast] at h
          injection h with h1 h2
          injection h2 with h3
          refine ⟨art, info.1, ?_⟩
          rw [← h3]
          exact hcast

/-- Witness for C10 on the example dataset. -/
theorem c10_witness :
    (Dataset.init exTable (some "ds") none none none).df = exTable
    ∧ (exDataset.slice (some (fun t => t))).df = (fun t => t) exDataset.df
    ∧ (exDataset.slice none).df = exDataset.df :=
  ⟨(c10_table_never_none exTable (some "ds") none none none exDataset (fun t => t)
      none "p" "x" exWorld).1,
    (c10_table_never_none exTable (some "ds") none none none exDataset (fun t => t)
      none "p" "x" exWorld).2.1,
    (c10_table_never_none exTable (some "ds") none none none exDataset (fun t => t)
      none "p" "x" exWorld).2.2.1⟩

end Giskard
